import Mathlib

/-!
# Verification of `scripts/build-roster.py`

A shallow embedding of the roster-building script: Python strings are
modelled as `List Char`, fallible code returns `Option`, and the
side-effecting entry point `main` is a pure function of the fetch outcome
and the wall-clock string.  CPython details that matter are modelled
faithfully: `str.splitlines`, `str.strip`, `int(...)` (sign, underscores
between digits, whitespace), `str.replace`, the `csv.reader` state machine
(default dialect, `strict=False`), and `csv.DictReader`'s dict building
(last duplicate field name wins, short rows padded with `None`, blank rows
skipped).  Unicode-only behaviours that no claim depends on (non-ASCII
decimal digits and exotic Unicode whitespace accepted by CPython, full
Unicode case mapping in `str.upper`) are restricted to their ASCII
fragments.  `csv.field_size_limit` (a resource bound) is not modelled.
-/

/-- Characters treated as whitespace by `str.strip()` and `int()`
(ASCII fragment of CPython's definition). -/
def isPySpace (c : Char) : Bool :=
  [' ', '\t', '\n', '\r', '\x0b', '\x0c', '\x1c', '\x1d', '\x1e', '\x1f', '\x85', '\xa0'].contains c

/-- Python `str.strip()` with no argument: drop whitespace from both ends. -/
def pyStrip (l : List Char) : List Char :=
  (((l.dropWhile isPySpace).reverse).dropWhile isPySpace).reverse

/-- Python's substring test `pat in l`. -/
def containsStr (pat : List Char) : List Char → Bool
  | [] => pat.isEmpty
  | c :: t => pat.isPrefixOf (c :: t) || containsStr pat t

/-- `pat` occurs as a contiguous substring of `l`. -/
def subStr (pat l : List Char) : Prop :=
  ∃ a b, l = a ++ pat ++ b

/-- Characters on which `str.splitlines()` breaks lines. -/
def isLineBreak (c : Char) : Bool :=
  ['\n', '\r', '\x0b', '\x0c', '\x1c', '\x1d', '\x1e', '\x85', '\u2028', '\u2029'].contains c

/-- Worker for `pySplitlines`: `cur` is the line accumulated so far.
A `\r\n` pair counts as a single break; a trailing break ends no new line. -/
def slGo (cur : List Char) : List Char → List (List Char)
  | [] => [cur]
  | '\r' :: '\n' :: rest2 =>
    cur :: (match rest2 with | [] => [] | _ :: _ => slGo [] rest2)
  | ['\r'] => [cur]
  | '\r' :: rest => cur :: slGo [] rest
  | c :: rest =>
    if isLineBreak c then cur :: (match rest with | [] => [] | _ :: _ => slGo [] rest)
    else slGo (cur ++ [c]) rest

/-- Python `str.splitlines()`. -/
def pySplitlines (s : List Char) : List (List Char) :=
  if s.isEmpty then [] else slGo [] s

/-- Python `str.split(sep)` for a one-character separator. -/
def pySplitChar (sep : Char) : List Char → List (List Char)
  | [] => [[]]
  | c :: rest =>
    if c = sep then [] :: pySplitChar sep rest
    else
      match pySplitChar sep rest with
      | [] => [[c]]
      | p :: ps => (c :: p) :: ps

/-- Numeric value of an ASCII digit character. -/
def digitVal (c : Char) : Nat := c.toNat - 48

/-- Digit-group scanner for `int()`: after a first digit, digits may be
separated by single underscores; a trailing or doubled underscore fails. -/
def pyIntGo (acc : Nat) : List Char → Option Nat
  | [] => some acc
  | '_' :: c :: rest => if c.isDigit then pyIntGo (acc * 10 + digitVal c) rest else none
  | ['_'] => none
  | c :: rest => if c.isDigit then pyIntGo (acc * 10 + digitVal c) rest else none

/-- The digit part of `int()`: one digit, then `pyIntGo`. -/
def pyIntDigits : List Char → Option Nat
  | [] => none
  | c :: rest => if c.isDigit then pyIntGo (digitVal c) rest else none

/-- Python `int(s)` on a string: strip whitespace, optional sign, ASCII
digits with underscores; `none` models `ValueError`. -/
def pyInt (s : List Char) : Option Int :=
  match pyStrip s with
  | '+' :: rest => (pyIntDigits rest).map (fun n => (n : Int))
  | '-' :: rest => (pyIntDigits rest).map (fun n => -(n : Int))
  | t => (pyIntDigits t).map (fun n => (n : Int))

/-- Decimal digits of a natural number, as rendered by Python `str`. -/
def natToStr (n : Nat) : List Char := Nat.toDigits 10 n

/-- Python `str(i)` for an `int`. -/
def intToStr (i : Int) : List Char :=
  if i < 0 then '-' :: natToStr i.natAbs else natToStr i.toNat

/-- The `MONTHS` table of the script. -/
def MONTHS : List (List Char) :=
  [( "Jan").toList, ( "Feb").toList, ( "Mar").toList, ( "Apr").toList,
   ( "May").toList, ( "Jun").toList, ( "Jul").toList, ( "Aug").toList,
   ( "Sep").toList, ( "Oct").toList, ( "Nov").toList, ( "Dec").toList]

/-- `format_date` from the script: split on `/`; with exactly three parts,
parse month and day as ints (a `ValueError` falls through to the raw
string); if `0 ≤ month - 1 < 12`, format as `Mon D, YYYY` with the third
part inserted verbatim; otherwise return the raw string. -/
def format_date (date_str : List Char) : List Char :=
  match pySplitChar '/' date_str with
  | [p0, p1, p2] =>
    (match pyInt p0, pyInt p1 with
     | some m, some d =>
       let month : Int := m - 1
       if 0 ≤ month ∧ month < 12 then
         (MONTHS.getD month.toNat []) ++ [' '] ++ intToStr d ++ [',', ' '] ++ p2
       else date_str
     | _, _ => date_str)
  | _ => date_str

/-- Replacement text for `&` in `html_escape`. -/
def ampRep : List Char := ( "&amp;").toList

/-- Replacement text for `<` in `html_escape`. -/
def ltRep : List Char := ( "&lt;").toList

/-- Replacement text for `>` in `html_escape`. -/
def gtRep : List Char := ( "&gt;").toList

/-- Replacement text for `"` in `html_escape`. -/
def quotRep : List Char := ( "&quot;").toList

/-- Python `str.replace(pat, rep)` for a one-character pattern:
left-to-right replacement of every occurrence. -/
def replaceChar (pat : Char) (rep : List Char) : List Char → List Char
  | [] => []
  | c :: t => if c = pat then rep ++ replaceChar pat rep t else c :: replaceChar pat rep t

/-- `html_escape` from the script: chained `replace` calls, `&` first. -/
def html_escape (text : List Char) : List Char :=
  replaceChar '\"' quotRep (replaceChar '>' gtRep (replaceChar '<' ltRep (replaceChar '&' ampRep text)))

/-- Parser states of CPython's `_csv` reader (default dialect). -/
inductive CsvState
  | startRecord | startField | inField | inQuoted | quoteQuoted
deriving DecidableEq

/-- CPython `csv.reader` state machine (delimiter `,`, quote `"`,
`doublequote=True`, `strict=False`), specialised to input whose only
line-break character is `\n` (guaranteed here: the input is
`splitlines` output re-joined with `\n`).  `field`/`row` accumulate the
current field and record; at end of input a pending record is emitted
(unterminated quoted fields are accepted, as CPython does when not
strict). -/
def csvScan (st : CsvState) (field : List Char) (row : List (List Char)) : List Char → List (List (List Char))
  | [] =>
    match st with
    | .startRecord => []
    | _ => [row ++ [field]]
  | c :: rest =>
    match st with
    | .startRecord =>
      if c = '\n' then [] :: csvScan .startRecord [] [] rest
      else if c = '\"' then csvScan .inQuoted [] row rest
      else if c = ',' then csvScan .startField [] (row ++ [[]]) rest
      else csvScan .inField [c] row rest
    | .startField =>
      if c = '\n' then (row ++ [[]]) :: csvScan .startRecord [] [] rest
      else if c = '\"' then csvScan .inQuoted [] row rest
      else if c = ',' then csvScan .startField [] (row ++ [[]]) rest
      else csvScan .inField [c] row rest
    | .inField =>
      if c = '\n' then (row ++ [field]) :: csvScan .startRecord [] [] rest
      else if c = ',' then csvScan .startField [] (row ++ [field]) rest
      else csvScan .inField (field ++ [c]) row rest
    | .inQuoted =>
      if c = '\"' then csvScan .quoteQuoted field row rest
      else csvScan .inQuoted (field ++ [c]) row rest
    | .quoteQuoted =>
      if c = '\"' then csvScan .inQuoted (field ++ [c]) row rest
      else if c = ',' then csvScan .startField [] (row ++ [field]) rest
      else if c = '\n' then (row ++ [field]) :: csvScan .startRecord [] [] rest
      else csvScan .inField (field ++ [c]) row rest

/-- All records of a CSV text, in order. -/
def csvRows (data : List Char) : List (List (List Char)) :=
  csvScan .startRecord [] [] data

/-- Value bound to `key` in `dict(zip(fns, row))` after `DictReader`'s
padding of missing fields with `restval = None`: `none` when the key is
absent, `some none` when it is bound to `None`, `some (some v)` for a
string value.  The binding of the highest index wins, as repeated `dict`
assignment makes the last duplicate field name win. -/
def dictLookup (fns row : List (List Char)) (key : List Char) : Option (Option (List Char)) :=
  match fns, row with
  | [], _ => none
  | f :: fs, [] =>
    match dictLookup fs [] key with
    | some w => some w
    | none => if f = key then some none else none
  | f :: fs, v :: vs =>
    match dictLookup fs vs key with
    | some w => some w
    | none => if f = key then some (some v) else none

/-- `row.get(key, dflt)` followed by a method call on the result:
an absent key gives the default, a `None` value makes the subsequent
`.strip()` raise `AttributeError` (modelled as `none`). -/
def getStr (fns row : List (List Char)) (key dflt : List Char) : Option (List Char) :=
  match dictLookup fns row key with
  | none => some dflt
  | some none => none
  | some (some v) => some v

/-- A parsed member record (the dict built at lines 75-80 of the script). -/
structure Member where
  callsign : List Char
  name : List Char
  join_date : List Char
  qc_number : Int
deriving DecidableEq, Repr

/-- The literal `"Callsign"`: both the header-search token and the dict key. -/
def callsignKey : List Char := ( "Callsign").toList

/-- The dict key `"Name"`. -/
def nameKey : List Char := ( "Name").toList

/-- The dict key `"Join Date"`. -/
def joinDateKey : List Char := ( "Join Date").toList

/-- The dict key `"QC #"`. -/
def qcKey : List Char := ( "QC #").toList

/-- The default `"0"` used for a missing `QC #` field. -/
def zeroDefault : List Char := ( "0").toList

/-- The loop body of `parse_members` on one data row: read and strip the
four fields (`none` models the uncaught `AttributeError` when a field
padded to `None` is stripped); the rank parse defaults to `0` on
`ValueError`. -/
def readRow (fns row : List (List Char)) : Option Member :=
  match getStr fns row callsignKey [], getStr fns row nameKey [],
        getStr fns row joinDateKey [], getStr fns row qcKey zeroDefault with
  | some cs, some nm, some jd, some qs =>
    some { callsign := pyStrip cs, name := pyStrip nm, join_date := pyStrip jd,
           qc_number := (pyInt (pyStrip qs)).getD 0 }
  | _, _, _, _ => none

/-- The truthiness test `if callsign and qc_number` of the script. -/
def validMember (m : Member) : Bool :=
  !m.callsign.isEmpty && !(m.qc_number == 0)

/-- Insert into a list, before the first element of strictly greater
rank (so equal ranks keep the inserted element first). -/
def insertByQc (m : Member) : List Member → List Member
  | [] => [m]
  | h :: t => if h.qc_number < m.qc_number then h :: insertByQc m t else m :: h :: t

/-- `members.sort(key=lambda m: m["qc_number"])`: Python's list sort is a
stable ascending sort by the key, modelled as stable insertion sort. -/
def sortByQc : List Member → List Member
  | [] => []
  | h :: t => insertByQc h (sortByQc t)

/-- Map a fallible function over a list, failing (raising) on the first
failure, as the row loop of `parse_members` does. -/
def optionMapList (f : α → Option β) : List α → Option (List β)
  | [] => some []
  | a :: t =>
    match f a, optionMapList f t with
    | some b, some bs => some (b :: bs)
    | _, _ => none

/-- The header search loop: index of the first line containing
`"Callsign"`, counting from `i`. -/
def headerIdxGo (i : Nat) : List (List Char) → Option Nat
  | [] => none
  | l :: rest => if containsStr callsignKey l then some i else headerIdxGo (i + 1) rest

/-- Index of the header row (`header_idx` in the script; `none` models `-1`). -/
def headerIdx (lines : List (List Char)) : Option Nat :=
  headerIdxGo 0 lines

/-- The separator used to re-join lines (`"\n".join(...)`). -/
def newlineSep : List Char := ['\n']

/-- Locating the table: split into lines, find the header row, re-join
from it on, run the CSV reader; yields the field names (first record,
`DictReader.fieldnames`) and the data records with blank records
dropped (`DictReader` skips `row == []`).  `none`: no header line, or
no records at all. -/
def csvTable (csv_text : List Char) : Option (List (List Char) × List (List (List Char))) :=
  let lines := pySplitlines csv_text
  match headerIdx lines with
  | none => none
  | some i =>
    match csvRows (List.intercalate newlineSep (lines.drop i)) with
    | [] => none
    | fns :: rest => some (fns, rest.filter (fun r => !r.isEmpty))

/-- `parse_members` from the script.  `some []` when the header is not
found (early `return []`) or there are no valid rows; `none` models the
uncaught `AttributeError` from a short row (see `getStr`).  The result
is sorted ascending by rank before being returned (line 82). -/
def parse_members (csv_text : List Char) : Option (List Member) :=
  match csvTable csv_text with
  | none => some []
  | some (fns, rows) =>
    match optionMapList (readRow fns) rows with
    | none => none
    | some ms => some (sortByQc (ms.filter validMember))

/-- Python `str.upper()` (ASCII fragment). -/
def pyUpper (l : List Char) : List Char := l.map Char.toUpper

/-- The hardcoded distinguished callsign `"W6JSV"`. -/
def distinguishedCallsign : List Char := ( "W6JSV").toList

/-- The CSS class `"founder"`. -/
def founderClass : List Char := ( "founder").toList

/-- The CSS class `"tech-guy"`. -/
def techClass : List Char := ( "tech-guy").toList

/-- The founder badge markup. -/
def founderBadge : List Char :=
  ( "<span class=\"founder-badge\">Founder</span>").toList

/-- The tech badge markup. -/
def techBadge : List Char :=
  ( "<span class=\"tech-badge\">Resident Computer Guy</span>").toList

/-- The `row_class`/`badge` assignment of `render_member_row`
(lines 92-99): rank at most 3 wins first; otherwise the upper-cased
callsign is compared with the distinguished identifier; otherwise both
stay empty. -/
def rowClassBadge (m : Member) : List Char × List Char :=
  if m.qc_number ≤ 3 then (founderClass, founderBadge)
  else if pyUpper m.callsign = distinguishedCallsign then (techClass, techBadge)
  else ([], [])

def htmlPartA : List Char :=
  ( "<!DOCTYPE html>\n<html lang=\"en\">\n<head>\n    <meta charset=\"UTF-8\">\n    <meta name=\"viewport\" content=\"width=device-width, initial-scale=1.0\">\n    <title>Member Roster | QRQ Crew Club</title>\n    <link rel=\"icon\" type=\"image/svg+xml\" href=\"favicon.svg\">\n    <link rel=\"preconnect\" href=\"https://fonts.googleapis.com\">\n    <link rel=\"preconnect\" href=\"https://fonts.gstatic.com\" crossorigin>\n    <link href=\"https://fonts.googleapis.com/css2?family=Playfair+Display:wght@400;600;700&family=Source+Sans+Pro:wght@400;600;700&display=swap\" rel=\"stylesheet\">\n    <style>\n        :root \x7b\n            --navy: #1B3A57;\n            --navy-dark: #132A40;\n            --slate-blue: #4A7C9B;\n            --light-blue: #7BA3BE;\n            --cream: #FDFBF7;\n            --white: #FFFFFF;\n            --text-dark: #2C3E50;\n            --text-muted: #5D6D7E;\n            --border-light: #D5DFE5;\n            --gold: #C9A227;\n            --tech-blue: #4A90A4;\n        \x7d\n\n        * \x7b\n            margin: 0;\n            padding: 0;\n            box-sizing: border-box;\n        \x7d\n\n        body \x7b\n            font-family: \x27Source Sans Pro\x27, Georgia, serif;\n            background-color: var(--cream);\n            color: var(--text-dark);\n            line-height: 1.7;\n            min-height: 100vh;\n        \x7d\n\n        .container \x7b\n            max-width: 960px;\n            margin: 0 auto;\n            padding: 0 24px;\n        \x7d\n\n        header \x7b\n            background: var(--white);\n            border-bottom: 3px solid var(--navy);\n            padding: 30px 0;\n        \x7d\n\n        .header-content \x7b\n            display: flex;\n            align-items: center;\n            justify-content: space-between;\n            margin-top: 16px;\n        \x7d\n\n        .back-link \x7b\n            display: inline-flex;\n            align-items: center;\n            gap: 8px;\n            color: var(--slate-blue);\n            text-decoration: none;\n            font-size: 0.9rem;\n            transition: color 0.3s ease;\n        \x7d\n\n        .back-link:hover \x7b\n            color: var(--navy);\n        \x7d\n\n        h1 \x7b\n            font-family: \x27Playfair Display\x27, Georgia, serif;\n            font-size: 2rem;\n            font-weight: 600;\n            color: var(--navy);\n        \x7d\n\n        .member-count \x7b\n            font-size: 0.9rem;\n            color: var(--text-muted);\n        \x7d\n\n        main \x7b\n            padding: 40px 0 80px;\n        \x7d\n\n        .roster-header \x7b\n            display: grid;\n            grid-template-columns: 80px 120px 1fr 140px;\n            gap: 16px;\n            padding: 16px 20px;\n            background: var(--navy);\n            color: var(--white);\n            font-size: 0.75rem;\n            font-weight: 600;\n            letter-spacing: 0.1em;\n            text-transform: uppercase;\n        \x7d\n\n        .roster-table \x7b\n            background: var(--white);\n            border: 1px solid var(--border-light);\n            border-top: none;\n        \x7d\n\n        .member-row \x7b\n            display: grid;\n            grid-template-columns: 80px 120px 1fr 140px;\n            gap: 16px;\n            padding: 16px 20px;\n            border-bottom: 1px solid var(--border-light);\n            align-items: center;\n            transition: background 0.2s ease;\n        \x7d\n\n        .member-row:hover \x7b\n            background: rgba(74, 124, 155, 0.05);\n        \x7d\n\n        .member-row:last-child \x7b\n            border-bottom: none;\n        \x7d\n\n        .member-row.founder \x7b\n            background: linear-gradient(90deg, rgba(201, 162, 39, 0.08) 0%, transparent 100%);\n        \x7d\n\n        .member-row.tech-guy \x7b\n            background: linear-gradient(90deg, rgba(74, 144, 164, 0.08) 0%, transparent 100%);\n        \x7d\n\n        .tech-guy .qc-number \x7b\n            color: var(--tech-blue);\n        \x7d\n\n        .qc-number \x7b\n            font-family: \x27Playfair Display\x27, Georgia, serif;\n            font-weight: 600;\n            color: var(--slate-blue);\n        \x7d\n\n        .founder .qc-number \x7b\n            color: var(--gold);\n        \x7d\n\n        .callsign \x7b\n            font-weight: 600;\n            color: var(--navy);\n        \x7d\n\n        .callsign a \x7b\n            color: var(--navy);\n            text-decoration: none;\n            transition: color 0.2s ease;\n        \x7d\n\n        .callsign a:hover \x7b\n            color: var(--slate-blue);\n            text-decoration: underline;\n        \x7d\n\n        .name \x7b\n            color: var(--text-dark);\n        \x7d\n\n        .founder-badge \x7b\n            display: inline-block;\n            font-size: 0.65rem;\n            font-weight: 600;\n            letter-spacing: 0.05em;\n            text-transform: uppercase;\n            color: var(--gold);\n            background: rgba(201, 162, 39, 0.15);\n            padding: 2px 8px;\n            margin-left: 8px;\n            vertical-align: middle;\n        \x7d\n\n        .tech-badge \x7b\n            display: inline-block;\n            font-size: 0.65rem;\n            font-weight: 600;\n            letter-spacing: 0.05em;\n            text-transform: uppercase;\n            color: var(--tech-blue);\n            background: rgba(74, 144, 164, 0.15);\n            padding: 2px 8px;\n            margin-left: 8px;\n            vertical-align: middle;\n        \x7d\n\n        .join-date \x7b\n            color: var(--text-muted);\n            font-size: 0.9rem;\n        \x7d\n\n        .error \x7b\n            text-align: center;\n            padding: 40px 20px;\n            background: var(--white);\n            border: 1px solid var(--border-light);\n            color: var(--text-muted);\n        \x7d\n\n        .error a \x7b\n            color: var(--slate-blue);\n        \x7d\n\n        .roster-footer \x7b\n            margin-top: 40px;\n            text-align: center;\n            padding: 24px;\n            background: var(--white);\n            border: 1px solid var(--border-light);\n        \x7d\n\n        .roster-footer p \x7b\n            color: var(--text-muted);\n            font-size: 0.9rem;\n            margin-bottom: 8px;\n        \x7d\n\n        .roster-footer a \x7b\n            color: var(--slate-blue);\n            text-decoration: none;\n        \x7d\n\n        .roster-footer a:hover \x7b\n            text-decoration: underline;\n        \x7d\n\n        .last-updated \x7b\n            font-size: 0.8rem;\n            color: var(--text-muted);\n            opacity: 0.7;\n        \x7d\n\n        footer \x7b\n            background: var(--navy);\n            color: var(--white);\n            padding: 30px 0;\n            text-align: center;\n        \x7d\n\n        .footer-text \x7b\n            font-size: 0.85rem;\n            opacity: 0.8;\n        \x7d\n\n        .footer-text a \x7b\n            color: var(--light-blue);\n            text-decoration: none;\n        \x7d\n\n        .footer-text a:hover \x7b\n            text-decoration: underline;\n        \x7d\n\n        @media (max-width: 700px) \x7b\n            .container \x7b\n                padding: 0 16px;\n            \x7d\n\n            .roster-header \x7b\n                display: none;\n            \x7d\n\n            .roster-table \x7b\n                border: none;\n                background: transparent;\n            \x7d\n\n            .member-row \x7b\n                display: block;\n                background: var(--white);\n                border: 1px solid var(--border-light);\n                border-radius: 4px;\n                padding: 16px;\n                margin-bottom: 12px;\n            \x7d\n\n            .member-row:hover \x7b\n                background: var(--white);\n            \x7d\n\n            .member-row.founder \x7b\n                background: var(--white);\n                border-left: 3px solid var(--gold);\n            \x7d\n\n            .member-row.tech-guy \x7b\n                background: var(--white);\n                border-left: 3px solid var(--tech-blue);\n            \x7d\n\n            .tech-guy .qc-number \x7b\n                background: var(--tech-blue);\n                color: var(--white);\n            \x7d\n\n            .qc-number \x7b\n                display: inline-block;\n                font-size: 0.8rem;\n                background: var(--navy);\n                color: var(--white);\n                padding: 2px 10px;\n                border-radius: 3px;\n                margin-bottom: 8px;\n            \x7d\n\n            .founder .qc-number \x7b\n                background: var(--gold);\n                color: var(--white);\n            \x7d\n\n            .callsign \x7b\n                display: block;\n                font-size: 1.25rem;\n                margin-bottom: 4px;\n            \x7d\n\n            .name \x7b\n                display: block;\n                font-size: 1rem;\n                color: var(--text-dark);\n                margin-bottom: 8px;\n            \x7d\n\n            .founder-badge \x7b\n                display: inline-block;\n                margin-left: 0;\n                margin-top: 4px;\n            \x7d\n\n            .join-date \x7b\n                display: block;\n                font-size: 0.85rem;\n                color: var(--text-muted);\n            \x7d\n\n            .join-date::before \x7b\n                content: \x27Joined \x27;\n            \x7d\n\n            .header-content \x7b\n                flex-direction: column;\n                align-items: flex-start;\n                gap: 8px;\n            \x7d\n\n            h1 \x7b\n                font-size: 1.5rem;\n            \x7d\n\n            .roster-footer \x7b\n                margin-top: 20px;\n            \x7d\n        \x7d\n    </style>\n</head>\n<body>\n    <header>\n        <div class=\"container\">\n            <a href=\"index.html\" class=\"back-link\">&larr; Back to Home</a>\n            <div class=\"header-content\">\n                <h1>Member Roster</h1>\n                <span class=\"member-count\">").toList

def htmlPartB : List Char :=
  ( "</span>\n            </div>\n        </div>\n    </header>\n\n    <main>\n        <div class=\"container\">\n            <div class=\"roster-header\">\n                <span>QC #</span>\n                <span>Callsign</span>\n                <span>Name</span>\n                <span>Joined</span>\n            </div>\n\n            <div class=\"roster-table\">\n").toList

def htmlPartC : List Char :=
  ( "\n            </div>\n\n            <div class=\"roster-footer\">\n                <p>Want to join the crew? <a href=\"index.html#membership\">Learn how to become a member</a></p>\n                <p class=\"last-updated\">Last updated: ").toList

def htmlPartD : List Char :=
  ( "</p>\n            </div>\n        </div>\n    </main>\n\n    <footer>\n        <div class=\"container\">\n            <div class=\"footer-morse\">&minus;&middot;&minus;&middot; &minus;&minus;&middot;&minus; / &minus;&minus;&middot;&minus; &minus;&middot;&minus;&middot;</div>\n            <p class=\"footer-text\">\n                QRQ Crew Club &copy; 2025 &middot; <a href=\"index.html\">Home</a>\n            </p>\n        </div>\n    </footer>\n</body>\n</html>\n").toList

def rowChunk0 : List Char :=
  ( "                <div class=\"member-row ").toList

def rowChunk1 : List Char :=
  ( "\">\n                    <span class=\"qc-number\">QC #").toList

def rowChunk2 : List Char :=
  ( "</span>\n                    <span class=\"callsign\">\n                        <a href=\"https://www.qrz.com/db/").toList

def rowChunk3 : List Char :=
  ( "\" target=\"_blank\" rel=\"noopener\">").toList

def rowChunk4 : List Char :=
  ( "</a>\n                    </span>\n                    <span class=\"name\">").toList

def rowChunk5 : List Char :=
  ( "").toList

def rowChunk6 : List Char :=
  ( "</span>\n                    <span class=\"join-date\">").toList

def rowChunk7 : List Char :=
  ( "</span>\n                </div>").toList

/-- `render_member_row` from the script: the f-string with its seven
interpolations (`row_class`, `qc`, `callsign` twice, `name`, `badge`,
`date`); callsign, name and date are escaped, the date also formatted. -/
def render_member_row (m : Member) : List Char :=
  rowChunk0 ++ (rowClassBadge m).1 ++ rowChunk1 ++ intToStr m.qc_number ++ rowChunk2
    ++ html_escape m.callsign ++ rowChunk3 ++ html_escape m.callsign ++ rowChunk4
    ++ html_escape m.name ++ rowChunk5 ++ (rowClassBadge m).2 ++ rowChunk6
    ++ html_escape (format_date m.join_date) ++ rowChunk7

/-- The member-count text: `f"{count} Member{'s' if count != 1 else ''}"`. -/
def count_text (count : Nat) : List Char :=
  natToStr count ++ ( " Member").toList ++ (if count != 1 then [ 's'] else [])

/-- `generate_html` from the script, with the wall-clock string taken as
a parameter (`datetime.now(...).strftime(...)` is the only impure input). -/
def generate_html (now : List Char) (members : List Member) : List Char :=
  htmlPartA ++ count_text members.length ++ htmlPartB
    ++ List.intercalate newlineSep (members.map render_member_row)
    ++ htmlPartC ++ now ++ htmlPartD

/-- `main` from the script as a pure function of the fetch outcome and the
wall-clock string.  Result: (process exit code, content written to
`roster.html` if any).  A fetch failure is caught and returns 1; an
uncaught exception inside `parse_members` (the `none` case) terminates
the interpreter with exit status 1 before any write; an empty member
list returns 1; otherwise the full document is written and 0 returned. -/
def mainRun (fetchResult : Except (List Char) (List Char)) (now : List Char) : Nat × Option (List Char) :=
  match fetchResult with
  | .error _ => (1, none)
  | .ok csv_text =>
    match parse_members csv_text with
    | none => (1, none)
    | some [] => (1, none)
    | some ms => (0, some (generate_html now ms))

/-- Per-character view of `html_escape` (proved equal to it below). -/
def escChar (c : Char) : List Char :=
  if c = '&' then ampRep
  else if c = '<' then ltRep
  else if c = '>' then gtRep
  else if c = '\"' then quotRep
  else [c]

/-- `escChar` mapped over a string. -/
def escStr : List Char → List Char
  | [] => []
  | c :: t => escChar c ++ escStr t

/-- Transition function of a scanner for the character pattern `<sc`:
state 1 after `<`, state 2 after `<s`, absorbing state 3 once `<sc` has
been seen. -/
def scanLt : Nat → Char → Nat
  | 3, _ => 3
  | 2, c => if c = 'c' then 3 else if c = '<' then 1 else 0
  | 1, c => if c = 's' then 2 else if c = '<' then 1 else 0
  | _, c => if c = '<' then 1 else 0

/-- Run the `<sc` scanner over a string from state `q`. -/
def scanAll (q : Nat) (l : List Char) : Nat :=
  l.foldl scanLt q

/-- The three-character pattern `<sc`. -/
def ltscPat : List Char := ( "<sc").toList

/-- The pattern `<script>` of the escaping claim. -/
def scriptPat : List Char := ( "<script>").toList

/-- What `<script>` must become after escaping. -/
def escScriptPat : List Char := ( "&lt;script&gt;").toList

/-- The tail of `scriptPat` after `ltscPat`. -/
def scriptPatTail : List Char := ( "ript>").toList

/-- Header fields `Callsign,Name,Join Date,QC #` as parsed by the reader. -/
def fns4 : List (List Char) := [callsignKey, nameKey, joinDateKey, qcKey]

/-- A complete data row for W1AW. -/
def rowW1AW : List (List Char) :=
  [( "W1AW").toList, ( "Hiram").toList, ( "1/1/1914").toList, [ '1']]

/-- A data row with only two of the four fields. -/
def rowShort : List (List Char) := [( "K9X").toList, [ 'Y']]

/-- The member record parsed from `rowW1AW`. -/
def memberW1AW : Member :=
  { callsign := ( "W1AW").toList, name := ( "Hiram").toList,
    join_date := ( "1/1/1914").toList, qc_number := 1 }

/-- CSV text with a well-formed row followed by a short row. -/
def csvC1 : List Char :=
  ( "Callsign,Name,Join Date,QC #\nW1AW,Hiram,1/1/1914,1\nK9X,Y").toList

/-- CSV text with two noise lines before the header and one data row. -/
def csvC7 : List Char :=
  ( "QRQ Crew Club roster export\nupdated weekly\nCallsign,Name,Join Date,QC #\nW1AW,Hiram,1/1/1914,1").toList

/-- CSV text with no line containing the header token. -/
def csvNoHeader : List Char := ( "one,two\nthree,four").toList

/-- CSV text whose data rows are not in rank order. -/
def csvC9 : List Char :=
  ( "Callsign,Name,Join Date,QC #\nN2B,Bob,2/2/2002,2\nN1A,Ann,1/1/2001,1").toList

/-- Data row of rank 2, first in `csvC9`. -/
def rowBob : List (List Char) :=
  [( "N2B").toList, ( "Bob").toList, ( "2/2/2002").toList, [ '2']]

/-- Data row of rank 1, second in `csvC9`. -/
def rowAnn : List (List Char) :=
  [( "N1A").toList, ( "Ann").toList, ( "1/1/2001").toList, [ '1']]

/-- The member parsed from `rowBob`. -/
def memberBob : Member :=
  { callsign := ( "N2B").toList, name := ( "Bob").toList,
    join_date := ( "2/2/2002").toList, qc_number := 2 }

/-- The member parsed from `rowAnn`. -/
def memberAnn : Member :=
  { callsign := ( "N1A").toList, name := ( "Ann").toList,
    join_date := ( "1/1/2001").toList, qc_number := 1 }

/-- CSV text with one data row whose rank field is `-2`. -/
def csvC10 : List Char :=
  ( "Callsign,Name,Join Date,QC #\nK1NEG,Neg,5/5/2005,-2").toList

/-- The member of negative rank parsed from `csvC10`. -/
def memberNeg : Member :=
  { callsign := ( "K1NEG").toList, name := ( "Neg").toList,
    join_date := ( "5/5/2005").toList, qc_number := -2 }

/-- A member whose name contains `<script>`. -/
def memberScript : Member :=
  { callsign := ( "K1A").toList, name := ( "a<script>b").toList,
    join_date := ( "1/2/2024").toList, qc_number := 5 }

/-- A founder-ranked member whose callsign matches the distinguished one. -/
def memberFounderW6JSV : Member :=
  { callsign := ( "W6JSV").toList, name := ( "Jay").toList,
    join_date := [], qc_number := 2 }

/-- A member matching the distinguished callsign in lower case, rank 9. -/
def memberTech : Member :=
  { callsign := ( "w6jsv").toList, name := ( "Jay").toList,
    join_date := [], qc_number := 9 }

/-- A sample fetch error message. -/
def exMsg : List Char := ( "timeout").toList

/-- A sample rendering timestamp. -/
def exNow : List Char := ( "February 03, 2026 at 12:00 UTC").toList

theorem isPrefixOf_eq (p : List Char) : ∀ l : List Char, p.isPrefixOf l = true ↔ ∃ b, l = p ++ b := by
  induction p with
  | nil => intro l; simp [List.isPrefixOf]
  | cons a as ih =>
    intro l
    cases l with
    | nil =>
      constructor
      · intro h; exact absurd h (by simp [List.isPrefixOf])
      · rintro ⟨b, hb⟩; exact absurd hb (by simp)
    | cons c t =>
      show (a == c && as.isPrefixOf t) = true ↔ _
      rw [Bool.and_eq_true, beq_iff_eq, ih t]
      constructor
      · rintro ⟨rfl, b, rfl⟩; exact ⟨b, rfl⟩
      · rintro ⟨b, hb⟩
        injection hb with h1 h2
        exact ⟨h1.symm, b, h2⟩

theorem containsStr_iff (pat : List Char) : ∀ l : List Char, containsStr pat l = true ↔ subStr pat l := by
  intro l
  induction l with
  | nil =>
    simp only [containsStr, subStr, List.isEmpty_iff]
    constructor
    · rintro rfl; exact ⟨[], [], rfl⟩
    · rintro ⟨a, b, h⟩
      rcases List.append_eq_nil.mp h.symm with ⟨h1, -⟩
      exact (List.append_eq_nil.mp h1).2
  | cons c t ih =>
    simp only [containsStr, Bool.or_eq_true, isPrefixOf_eq, ih]
    constructor
    · rintro (⟨b, hb⟩ | ⟨a, b, hab⟩)
      · exact ⟨[], b, by simpa using hb⟩
      · exact ⟨c :: a, b, by simp [hab]⟩
    · rintro ⟨a, b, hab⟩
      cases a with
      | nil => exact Or.inl ⟨b, by simpa using hab⟩
      | cons a0 a' =>
        simp only [List.cons_append, List.cons.injEq] at hab
        exact Or.inr ⟨a', b, hab.2⟩


theorem replaceChar_append (pat : Char) (rep a b : List Char) :
    replaceChar pat rep (a ++ b) = replaceChar pat rep a ++ replaceChar pat rep b := by
  induction a with
  | nil => rfl
  | cons c t ih => by_cases hc : c = pat <;> simp [replaceChar, hc, ih]

theorem html_escape_eq_escStr (l : List Char) : html_escape l = escStr l := by
  induction l with
  | nil => rfl
  | cons c t ih =>
    have h1 : replaceChar '&' ampRep (c :: t) =
        (if c = '&' then ampRep else [c]) ++ replaceChar '&' ampRep t := by
      by_cases hc : c = '&' <;> simp [replaceChar, hc]
    have h2 : replaceChar '\"' quotRep (replaceChar '>' gtRep (replaceChar '<' ltRep
        (if c = '&' then ampRep else [c]))) = escChar c := by
      by_cases ha : c = '&'
      · subst ha; decide
      · by_cases hb : c = '<'
        · subst hb; decide
        · by_cases hc : c = '>'
          · subst hc; decide
          · by_cases hd : c = '\"'
            · subst hd; decide
            · simp [replaceChar, escChar, ha, hb, hc, hd]
    show replaceChar '\"' quotRep (replaceChar '>' gtRep (replaceChar '<' ltRep
      (replaceChar '&' ampRep (c :: t)))) = escChar c ++ escStr t
    rw [h1, replaceChar_append, replaceChar_append, replaceChar_append, h2]
    exact congrArg (escChar c ++ ·) ih

theorem escStr_append (a b : List Char) : escStr (a ++ b) = escStr a ++ escStr b := by
  induction a with
  | nil => rfl
  | cons c t ih => simp [escStr, ih]

theorem mem_escStr_ne_lt (l : List Char) : ∀ c ∈ escStr l, c ≠ '<' := by
  induction l with
  | nil => intro c hc; exact absurd hc (by simp [escStr])
  | cons c t ih =>
    intro d hd
    rcases List.mem_append.mp hd with h | h
    · revert h
      unfold escChar
      split_ifs with h1 h2 h3 h4
      · exact fun h => (by decide : ∀ x ∈ ampRep, x ≠ '<') d h
      · exact fun h => (by decide : ∀ x ∈ ltRep, x ≠ '<') d h
      · exact fun h => (by decide : ∀ x ∈ gtRep, x ≠ '<') d h
      · exact fun h => (by decide : ∀ x ∈ quotRep, x ≠ '<') d h
      · intro h
        rcases List.mem_singleton.mp h with rfl
        exact h2
    · exact ih d h

theorem digitChar_ne_lt (n : Nat) : Nat.digitChar n ≠ '<' := by
  match n with
  | 0 => decide
  | 1 => decide
  | 2 => decide
  | 3 => decide
  | 4 => decide
  | 5 => decide
  | 6 => decide
  | 7 => decide
  | 8 => decide
  | 9 => decide
  | 10 => decide
  | 11 => decide
  | 12 => decide
  | 13 => decide
  | 14 => decide
  | 15 => decide
  | (k + 16) =>
    show ('*' : Char) ≠ '<'
    decide

theorem toDigitsCore_ne_lt (b : Nat) : ∀ (fuel n : Nat) (acc : List Char),
    (∀ c ∈ acc, c ≠ '<') → ∀ c ∈ Nat.toDigitsCore b fuel n acc, c ≠ '<' := by
  intro fuel
  induction fuel with
  | zero => intro n acc hacc; simpa [Nat.toDigitsCore] using hacc
  | succ f ih =>
    intro n acc hacc c hc
    rw [Nat.toDigitsCore] at hc
    have hcons : ∀ x ∈ Nat.digitChar (n % b) :: acc, x ≠ '<' := by
      intro x hx
      rcases List.mem_cons.mp hx with rfl | hx'
      · exact digitChar_ne_lt _
      · exact hacc x hx'
    by_cases hz : n / b = 0
    · rw [if_pos hz] at hc
      exact hcons c hc
    · rw [if_neg hz] at hc
      exact ih _ _ hcons c hc

theorem natToStr_ne_lt (n : Nat) : ∀ c ∈ natToStr n, c ≠ '<' :=
  toDigitsCore_ne_lt 10 (n + 1) n [] (by intro c hc; exact absurd hc (by simp))

theorem intToStr_ne_lt (i : Int) : ∀ c ∈ intToStr i, c ≠ '<' := by
  unfold intToStr
  split_ifs
  · intro c hc
    rcases List.mem_cons.mp hc with rfl | hc'
    · decide
    · exact natToStr_ne_lt _ c hc'
  · exact natToStr_ne_lt _

theorem scanAll_append (q : Nat) (a b : List Char) :
    scanAll q (a ++ b) = scanAll (scanAll q a) b := by
  simp [scanAll, List.foldl_append]

theorem scanAll_three (l : List Char) : scanAll 3 l = 3 := by
  induction l with
  | nil => rfl
  | cons c t ih => exact ih

theorem scanAll_zero (l : List Char) (h : ∀ c ∈ l, c ≠ '<') : scanAll 0 l = 0 := by
  induction l with
  | nil => rfl
  | cons c t ih =>
    have hc : c ≠ '<' := h c (List.mem_cons_self c t)
    have hstep : scanLt 0 c = 0 := by
      show (if c = '<' then 1 else 0) = 0
      rw [if_neg hc]
    show scanAll (scanLt 0 c) t = 0
    rw [hstep]
    exact ih (fun d hd => h d (List.mem_cons_of_mem c hd))

theorem scanAll_ltscPat (q : Nat) : scanAll q ltscPat = 3 := by
  match q with
  | 0 => decide
  | 1 => decide
  | 2 => decide
  | 3 => decide
  | (n + 4) => rfl

theorem subStr_scan (l : List Char) (h : subStr ltscPat l) (q : Nat) : scanAll q l = 3 := by
  obtain ⟨a, b, rfl⟩ := h
  rw [scanAll_append, scanAll_append, scanAll_ltscPat, scanAll_three]

theorem subStr_ltsc_of_script (l : List Char) (h : subStr scriptPat l) : subStr ltscPat l := by
  obtain ⟨a, b, rfl⟩ := h
  have hdecomp : scriptPat = ltscPat ++ scriptPatTail := by decide
  exact ⟨a, scriptPatTail ++ b, by rw [hdecomp]; simp [List.append_assoc]⟩

theorem rowClassBadge_cases (m : Member) :
    rowClassBadge m = (founderClass, founderBadge) ∨
    rowClassBadge m = (techClass, techBadge) ∨
    rowClassBadge m = ([], []) := by
  unfold rowClassBadge
  split_ifs <;> simp

set_option maxRecDepth 40000 in
theorem scanAll_render (m : Member) : scanAll 0 (render_member_row m) = 0 := by
  have hesc : ∀ l : List Char, scanAll 0 (html_escape l) = 0 := fun l =>
    scanAll_zero _ (by rw [html_escape_eq_escStr]; exact mem_escStr_ne_lt l)
  have hqc : scanAll 0 (intToStr m.qc_number) = 0 := scanAll_zero _ (intToStr_ne_lt _)
  have h0 : scanAll 0 rowChunk0 = 0 := by decide
  have h1 : scanAll 0 rowChunk1 = 0 := by decide
  have h2 : scanAll 0 rowChunk2 = 0 := by decide
  have h3 : scanAll 0 rowChunk3 = 0 := by decide
  have h4 : scanAll 0 rowChunk4 = 0 := by decide
  have h5 : scanAll 0 rowChunk5 = 0 := by decide
  have h6 : scanAll 0 rowChunk6 = 0 := by decide
  have h7 : scanAll 0 rowChunk7 = 0 := by decide
  have hfc : scanAll 0 founderClass = 0 := by decide
  have hfb : scanAll 0 founderBadge = 0 := by decide
  have htc : scanAll 0 techClass = 0 := by decide
  have htb : scanAll 0 techBadge = 0 := by decide
  rcases rowClassBadge_cases m with h | h | h <;>
    simp [render_member_row, h, scanAll_append, h0, h1, h2, h3, h4, h5, h6, h7,
      hfc, hfb, htc, htb, hesc, hqc]

/-- C6: in every rendered member row the callsign, name and date are
embedded only through `html_escape` (which rewrites `&`, `<`, `>`, `"`),
and for a name containing `<script>` the escaped text `&lt;script&gt;`
occurs in the row while the raw text `<script>` occurs nowhere in it. -/
theorem claim_c6 (m : Member) (h : subStr scriptPat m.name) :
    (∃ p q r s, render_member_row m =
        p ++ html_escape m.callsign ++ q ++ html_escape m.name ++ r
          ++ html_escape (format_date m.join_date) ++ s) ∧
    subStr escScriptPat (render_member_row m) ∧
    ¬ subStr scriptPat (render_member_row m) := by
  refine ⟨?_, ?_, ?_⟩
  · refine ⟨rowChunk0 ++ (rowClassBadge m).1 ++ rowChunk1 ++ intToStr m.qc_number ++ rowChunk2,
      rowChunk3 ++ html_escape m.callsign ++ rowChunk4,
      rowChunk5 ++ (rowClassBadge m).2 ++ rowChunk6, rowChunk7, ?_⟩
    simp [render_member_row, List.append_assoc]
  · obtain ⟨a, b, hn⟩ := h
    have hescn : html_escape m.name = escStr a ++ escScriptPat ++ escStr b := by
      rw [html_escape_eq_escStr, hn, escStr_append, escStr_append]
      have hp : escStr scriptPat = escScriptPat := by decide
      rw [hp]
    refine ⟨rowChunk0 ++ (rowClassBadge m).1 ++ rowChunk1 ++ intToStr m.qc_number ++ rowChunk2
        ++ html_escape m.callsign ++ rowChunk3 ++ html_escape m.callsign ++ rowChunk4 ++ escStr a,
      escStr b ++ rowChunk5 ++ (rowClassBadge m).2 ++ rowChunk6
        ++ html_escape (format_date m.join_date) ++ rowChunk7, ?_⟩
    simp [render_member_row, hescn, List.append_assoc]
  · intro hs
    have hltsc := subStr_ltsc_of_script _ hs
    have h3 := subStr_scan _ hltsc 0
    have h0 := scanAll_render m
    rw [h3] at h0
    exact absurd h0 (by decide)

theorem claim_c6_witness :
    subStr scriptPat memberScript.name ∧
    subStr escScriptPat (render_member_row memberScript) ∧
    ¬ subStr scriptPat (render_member_row memberScript) := by
  have h : subStr scriptPat memberScript.name := ⟨[ 'a'], [ 'b'], by decide⟩
  exact ⟨h, (claim_c6 memberScript h).2.1, (claim_c6 memberScript h).2.2⟩

theorem mem_insertByQc {x m : Member} {l : List Member} :
    x ∈ insertByQc m l ↔ x = m ∨ x ∈ l := by
  induction l with
  | nil => simp [insertByQc]
  | cons h t ih =>
    unfold insertByQc
    by_cases hcmp : h.qc_number < m.qc_number
    · rw [if_pos hcmp]
      simp only [List.mem_cons, ih]
      tauto
    · rw [if_neg hcmp]
      simp only [List.mem_cons]

theorem pairwise_insertByQc (m : Member) (l : List Member)
    (h : l.Pairwise (fun a b => a.qc_number ≤ b.qc_number)) :
    (insertByQc m l).Pairwise (fun a b => a.qc_number ≤ b.qc_number) := by
  induction l with
  | nil => simp [insertByQc]
  | cons x t ih =>
    rw [List.pairwise_cons] at h
    obtain ⟨hx, ht⟩ := h
    unfold insertByQc
    by_cases hcmp : x.qc_number < m.qc_number
    · rw [if_pos hcmp, List.pairwise_cons]
      refine ⟨?_, ih ht⟩
      intro y hy
      rcases mem_insertByQc.mp hy with rfl | hy'
      · exact Int.le_of_lt hcmp
      · exact hx y hy'
    · rw [if_neg hcmp, List.pairwise_cons]
      refine ⟨?_, List.pairwise_cons.mpr ⟨hx, ht⟩⟩
      intro y hy
      rcases List.mem_cons.mp hy with rfl | hy'
      · exact Int.not_lt.mp hcmp
      · exact Int.le_trans (Int.not_lt.mp hcmp) (hx y hy')

theorem sortByQc_pairwise (l : List Member) :
    (sortByQc l).Pairwise (fun a b => a.qc_number ≤ b.qc_number) := by
  induction l with
  | nil => simp [sortByQc]
  | cons h t ih => exact pairwise_insertByQc h _ ih

theorem mem_sortByQc {x : Member} {l : List Member} : x ∈ sortByQc l ↔ x ∈ l := by
  induction l with
  | nil => simp [sortByQc]
  | cons h t ih => simp [sortByQc, mem_insertByQc, ih]

theorem filter_insertByQc_pos (m : Member) (l : List Member) (k : Int) (hm : m.qc_number = k) :
    (insertByQc m l).filter (fun x => x.qc_number == k) =
      m :: l.filter (fun x => x.qc_number == k) := by
  induction l with
  | nil => simp [insertByQc, List.filter, hm]
  | cons h t ih =>
    unfold insertByQc
    by_cases hcmp : h.qc_number < m.qc_number
    · rw [if_pos hcmp]
      have hh : (h.qc_number == k) = false := by
        simp only [beq_eq_false_iff_ne, ne_eq]
        omega
      simp [List.filter_cons, hh, ih]
    · rw [if_neg hcmp]
      simp [List.filter_cons, hm]

theorem filter_insertByQc_neg (m : Member) (l : List Member) (k : Int) (hm : m.qc_number ≠ k) :
    (insertByQc m l).filter (fun x => x.qc_number == k) =
      l.filter (fun x => x.qc_number == k) := by
  have hb : (m.qc_number == k) = false := beq_eq_false_iff_ne.mpr hm
  induction l with
  | nil => simp [insertByQc, List.filter, hb]
  | cons h t ih =>
    unfold insertByQc
    by_cases hcmp : h.qc_number < m.qc_number
    · rw [if_pos hcmp]
      simp [List.filter_cons, ih]
    · rw [if_neg hcmp]
      simp [List.filter_cons, hb]

theorem sortByQc_filter (l : List Member) (k : Int) :
    (sortByQc l).filter (fun x => x.qc_number == k) = l.filter (fun x => x.qc_number == k) := by
  induction l with
  | nil => rfl
  | cons h t ih =>
    show (insertByQc h (sortByQc t)).filter _ = _
    by_cases hh : h.qc_number = k
    · rw [filter_insertByQc_pos h _ k hh, ih, List.filter_cons]
      simp [hh]
    · rw [filter_insertByQc_neg h _ k hh, ih, List.filter_cons]
      simp [hh]

theorem optionMapList_mem {α β : Type} {f : α → Option β} :
    ∀ {l : List α} {bs : List β}, optionMapList f l = some bs →
      ∀ {a : α}, a ∈ l → ∀ {b : β}, f a = some b → b ∈ bs := by
  intro l
  induction l with
  | nil => intro bs h a ha; exact absurd ha (List.not_mem_nil a)
  | cons x t ih =>
    intro bs h a ha b hb
    cases hfx : f x with
    | none => simp [optionMapList, hfx] at h
    | some b0 =>
      cases hrest : optionMapList f t with
      | none => simp [optionMapList, hfx, hrest] at h
      | some bs0 =>
        simp only [optionMapList, hfx, hrest] at h
        injection h with h'
        subst h'
        rcases List.mem_cons.mp ha with rfl | ha'
        · rw [hfx] at hb
          injection hb with hb'
          subst hb'
          exact List.mem_cons_self _ _
        · exact List.mem_cons_of_mem _ (ih hrest ha' hb)

theorem headerIdxGo_none (lines : List (List Char))
    (h : ∀ l ∈ lines, containsStr callsignKey l = false) :
    ∀ i, headerIdxGo i lines = none := by
  induction lines with
  | nil => intro i; rfl
  | cons x t ih =>
    intro i
    have hx := h x (List.mem_cons_self x t)
    rw [headerIdxGo, if_neg (by simp [hx])]
    exact ih (fun l hl => h l (List.mem_cons_of_mem x hl)) (i + 1)

theorem headerIdxGo_spec (lines : List (List Char)) :
    ∀ i n : Nat, headerIdxGo i lines = some n →
      i ≤ n ∧ ∃ l, lines.get? (n - i) = some l ∧ containsStr callsignKey l = true ∧
        ∀ j, j < n - i → ∀ l', lines.get? j = some l' → containsStr callsignKey l' = false := by
  induction lines with
  | nil => intro i n h; exact absurd h (by simp [headerIdxGo])
  | cons x t ih =>
    intro i n h
    by_cases hx : containsStr callsignKey x = true
    · rw [headerIdxGo, if_pos hx] at h
      injection h with hn
      subst hn
      refine ⟨Nat.le_refl _, x, ?_, hx, ?_⟩
      · simp
      · intro j hj l' hget
        exact absurd hj (by omega)
    · rw [headerIdxGo, if_neg hx] at h
      obtain ⟨hle, l, hget, hcont, hprev⟩ := ih (i + 1) n h
      have hxf : containsStr callsignKey x = false := by
        revert hx; cases containsStr callsignKey x <;> simp
      refine ⟨by omega, l, ?_, hcont, ?_⟩
      · have harith : n - i = (n - (i + 1)) + 1 := by omega
        rw [harith]
        simpa using hget
      · intro j hj l' hget'
        cases j with
        | zero =>
          have : x = l' := by simpa using hget'
          rw [← this]
          exact hxf
        | succ j' =>
          apply hprev j' (by omega)
          simpa using hget'

theorem validMember_iff (m : Member) :
    validMember m = true ↔ m.callsign ≠ [] ∧ m.qc_number ≠ 0 := by
  unfold validMember
  cases hcs : m.callsign <;> simp [hcs]

theorem parse_members_eq (csv : List Char) (fns : List (List Char)) (rows : List (List (List Char)))
    (hT : csvTable csv = some (fns, rows)) :
    parse_members csv =
      (optionMapList (readRow fns) rows).map (fun ms => sortByQc (ms.filter validMember)) := by
  unfold parse_members
  rw [hT]
  cases hOM : optionMapList (readRow fns) rows with
  | none => simp [hOM]
  | some ms => simp [hOM]

/-- C8: the date formatter maps `3/4/2024` to `Mar 4, 2024` and returns
the slash-free input `2024` unchanged. -/
theorem claim_c8 :
    format_date (( "3/4/2024").toList) = ( "Mar 4, 2024").toList ∧
    format_date (( "2024").toList) = ( "2024").toList := by
  exact ⟨by decide, by decide⟩

/-- C3: classification is first-match-wins: rank at most 3 gives the
founder class and badge regardless of the callsign; rank above 3 with the
distinguished callsign (case-insensitively) gives the special-role class
and badge; otherwise class and badge stay empty. -/
theorem claim_c3 (m : Member) :
    (m.qc_number ≤ 3 → rowClassBadge m = (founderClass, founderBadge)) ∧
    (3 < m.qc_number → pyUpper m.callsign = distinguishedCallsign →
       rowClassBadge m = (techClass, techBadge)) ∧
    (3 < m.qc_number → pyUpper m.callsign ≠ distinguishedCallsign →
       rowClassBadge m = ([], [])) := by
  unfold rowClassBadge
  refine ⟨fun h => if_pos h, fun h1 h2 => ?_, fun h1 h2 => ?_⟩
  · rw [if_neg (by omega), if_pos h2]
  · rw [if_neg (by omega), if_neg h2]

theorem claim_c3_witness :
    rowClassBadge memberFounderW6JSV = (founderClass, founderBadge) ∧
    rowClassBadge memberTech = (techClass, techBadge) := by
  exact ⟨(claim_c3 memberFounderW6JSV).1 (by decide),
         (claim_c3 memberTech).2.1 (by decide) (by decide)⟩

/-- C10: the validity gate only rejects rank zero, so a negative rank
survives parsing (witnessed by `csvC10`), and every rank at most 3 —
negative ranks included — is classified as founder. -/
theorem claim_c10 :
    parse_members csvC10 = some [memberNeg] ∧
    memberNeg.qc_number = -2 ∧
    (∀ m : Member, m.qc_number ≤ 3 →
       (rowClassBadge m).1 = founderClass ∧ (rowClassBadge m).2 = founderBadge) := by
  refine ⟨by decide, by decide, fun m h => ?_⟩
  unfold rowClassBadge
  rw [if_pos h]
  exact ⟨rfl, rfl⟩

theorem claim_c10_witness :
    memberNeg.qc_number ≤ 3 ∧ (rowClassBadge memberNeg).1 = founderClass := by
  exact ⟨by decide, (claim_c10.2.2 memberNeg (by decide)).1⟩

/-- C2: the sequence handed to the renderer, `sortByQc l`, is
non-decreasing in rank, members of equal rank keep their relative input
order (the filter at every rank value is unchanged), and `generate_html`
renders the member rows in exactly that list order. -/
theorem claim_c2 (l : List Member) (now : List Char) :
    (sortByQc l).Pairwise (fun a b => a.qc_number ≤ b.qc_number) ∧
    (∀ k : Int, (sortByQc l).filter (fun m => m.qc_number == k) =
       l.filter (fun m => m.qc_number == k)) ∧
    generate_html now (sortByQc l) =
      htmlPartA ++ count_text (sortByQc l).length ++ htmlPartB
        ++ List.intercalate newlineSep ((sortByQc l).map render_member_row)
        ++ htmlPartC ++ now ++ htmlPartD := by
  exact ⟨sortByQc_pairwise l, fun k => sortByQc_filter l k, rfl⟩

/-- C5 counterexample: the year part is never parsed, so `3/4/abc` is
reformatted to `Mar 4, abc` instead of being returned unchanged, even
though its year part fails integer parsing. -/
theorem claim_c5_counterexample :
    format_date (( "3/4/abc").toList) = ( "Mar 4, abc").toList ∧
    format_date (( "3/4/abc").toList) ≠ ( "3/4/abc").toList ∧
    pyInt (( "abc").toList) = none := by
  exact ⟨by decide, by decide, by decide⟩

/-- C5 (amended): with exactly three slash-separated parts, the month and
day parts parsed as integers and the month in 1-12, the result is
`Mon D, YYYY` with the year part copied verbatim (never parsed);
otherwise — fewer or more parts, month or day failing integer parsing,
or month out of range — the raw string is returned unchanged. -/
theorem claim_c5 (s : List Char) :
    (∀ p0 p1 p2, pySplitChar '/' s = [p0, p1, p2] →
      (∀ m d : Int, pyInt p0 = some m → pyInt p1 = some d → 1 ≤ m → m ≤ 12 →
         format_date s = (MONTHS.getD (m - 1).toNat []) ++ [' '] ++ intToStr d
           ++ [',', ' '] ++ p2) ∧
      (pyInt p0 = none → format_date s = s) ∧
      (pyInt p1 = none → format_date s = s) ∧
      (∀ m : Int, pyInt p0 = some m → (m < 1 ∨ 12 < m) → format_date s = s)) ∧
    ((∀ p0 p1 p2, pySplitChar '/' s ≠ [p0, p1, p2]) → format_date s = s) := by
  constructor
  · intro p0 p1 p2 hsp
    refine ⟨?_, ?_, ?_, ?_⟩
    · intro m d hm hd h1 h2
      simp only [format_date, hsp, hm, hd]
      rw [if_pos (⟨by omega, by omega⟩ : (0 : Int) ≤ m - 1 ∧ m - 1 < 12)]
    · intro hm
      simp only [format_date, hsp, hm]
    · intro hd
      cases hm : pyInt p0 with
      | none => simp only [format_date, hsp, hm]
      | some m => simp only [format_date, hsp, hm, hd]
    · intro m hm hrange
      cases hd : pyInt p1 with
      | none => simp only [format_date, hsp, hm, hd]
      | some d =>
        simp only [format_date, hsp, hm, hd]
        rw [if_neg (by omega : ¬((0 : Int) ≤ m - 1 ∧ m - 1 < 12))]
  · intro hne
    unfold format_date
    cases hsp : pySplitChar '/' s with
    | nil => rfl
    | cons p0 r1 =>
      cases r1 with
      | nil => rfl
      | cons p1 r2 =>
        cases r2 with
        | nil => rfl
        | cons p2 r3 =>
          cases r3 with
          | nil => exact absurd hsp (hne p0 p1 p2)
          | cons p3 r4 => rfl

theorem claim_c5_witness :
    pySplitChar '/' (( "3/4/2024").toList) = [[ '3'], [ '4'], ( "2024").toList] ∧
    format_date (( "3/4/2024").toList) =
      (MONTHS.getD ((3 : Int) - 1).toNat []) ++ [' '] ++ intToStr 4
        ++ [',', ' '] ++ ( "2024").toList := by
  refine ⟨by decide, ?_⟩
  exact ((claim_c5 (( "3/4/2024").toList)).1 [ '3'] [ '4'] (( "2024").toList)
    (by decide)).1 3 4 (by decide) (by decide) (by decide) (by decide)

/-- C4: the run exits 0 exactly when the fetch succeeded and at least one
valid member was parsed, in which case the full document is written; on
a fetch failure, a parse crash, or an empty member list it exits 1 and
writes nothing. -/
theorem claim_c4 (fr : Except (List Char) (List Char)) (now : List Char) :
    ((mainRun fr now).1 = 0 ↔
       ∃ csv ms, fr = Except.ok csv ∧ parse_members csv = some ms ∧ ms ≠ []) ∧
    ((mainRun fr now).1 ≠ 0 → (mainRun fr now).2 = none) ∧
    ((mainRun fr now).1 = 0 ∨ (mainRun fr now).1 = 1) ∧
    (∀ csv ms, fr = Except.ok csv → parse_members csv = some ms → ms ≠ [] →
       (mainRun fr now).2 = some (generate_html now ms)) := by
  cases fr with
  | error e =>
    have hm : mainRun (Except.error e) now = (1, none) := rfl
    rw [hm]
    refine ⟨?_, fun _ => rfl, Or.inr rfl, ?_⟩
    · constructor
      · intro h; exact absurd h (by decide)
      · rintro ⟨csv, ms, heq, -, -⟩
        simp at heq
    · intro csv ms heq
      simp at heq
  | ok csv =>
    cases hp : parse_members csv with
    | none =>
      have hm : mainRun (Except.ok csv) now = (1, none) := by simp [mainRun, hp]
      rw [hm]
      refine ⟨?_, fun _ => rfl, Or.inr rfl, ?_⟩
      · constructor
        · intro h; exact absurd h (by decide)
        · rintro ⟨csv', ms', heq, hp', -⟩
          injection heq with hcc
          subst hcc
          rw [hp] at hp'
          cases hp'
      · intro csv' ms' heq hp' hne
        injection heq with hcc
        subst hcc
        rw [hp] at hp'
        cases hp'
    | some ms =>
      cases ms with
      | nil =>
        have hm : mainRun (Except.ok csv) now = (1, none) := by simp [mainRun, hp]
        rw [hm]
        refine ⟨?_, fun _ => rfl, Or.inr rfl, ?_⟩
        · constructor
          · intro h; exact absurd h (by decide)
          · rintro ⟨csv', ms', heq, hp', hne⟩
            injection heq with hcc
            subst hcc
            rw [hp] at hp'
            injection hp' with hms
            exact absurd hms.symm hne
        · intro csv' ms' heq hp' hne
          injection heq with hcc
          subst hcc
          rw [hp] at hp'
          injection hp' with hms
          exact absurd hms.symm hne
      | cons m0 t =>
        have hm : mainRun (Except.ok csv) now = (0, some (generate_html now (m0 :: t))) := by
          simp [mainRun, hp]
        rw [hm]
        refine ⟨?_, ?_, Or.inl rfl, ?_⟩
        · constructor
          · intro _
            exact ⟨csv, m0 :: t, rfl, hp, by simp⟩
          · intro _; rfl
        · intro h; exact absurd rfl h
        · intro csv' ms' heq hp' hne
          injection heq with hcc
          subst hcc
          rw [hp] at hp'
          injection hp' with hms
          rw [hms]

theorem claim_c4_witness :
    mainRun (Except.error exMsg) exNow = (1, none) ∧
    (mainRun (Except.error exMsg) exNow).2 = none := by
  exact ⟨rfl, (claim_c4 (Except.error exMsg) exNow).2.1 (by decide)⟩

/-- C7: the first line containing `Callsign` is the header row (with all
earlier lines free of the token); with no such line the parser returns
the empty list; and the concrete noise-then-header-then-`W1AW` input
parses to exactly one record of rank 1. -/
theorem claim_c7 :
    (∀ csv : List Char,
       (∀ line ∈ pySplitlines csv, containsStr callsignKey line = false) →
       parse_members csv = some []) ∧
    (∀ (lines : List (List Char)) (n : Nat), headerIdx lines = some n →
       ∃ l, lines.get? n = some l ∧ containsStr callsignKey l = true ∧
         ∀ j, j < n → ∀ l', lines.get? j = some l' →
           containsStr callsignKey l' = false) ∧
    parse_members csvC7 = some [memberW1AW] := by
  refine ⟨?_, ?_, by decide⟩
  · intro csv h
    have hh : headerIdx (pySplitlines csv) = none := headerIdxGo_none _ h 0
    simp [parse_members, csvTable, hh]
  · intro lines n h
    obtain ⟨-, l, hget, hcont, hprev⟩ := headerIdxGo_spec lines 0 n h
    rw [Nat.sub_zero] at hget hprev
    exact ⟨l, hget, hcont, hprev⟩

theorem claim_c7_witness : parse_members csvNoHeader = some [] := by
  exact claim_c7.1 csvNoHeader (by decide)

theorem readRow_eq (fns row : List (List Char)) (m : Member)
    (h : readRow fns row = some m) :
    ∃ cs nm jd qs, getStr fns row callsignKey [] = some cs ∧
      getStr fns row nameKey [] = some nm ∧
      getStr fns row joinDateKey [] = some jd ∧
      getStr fns row qcKey zeroDefault = some qs ∧
      m = { callsign := pyStrip cs, name := pyStrip nm, join_date := pyStrip jd,
            qc_number := (pyInt (pyStrip qs)).getD 0 } := by
  unfold readRow at h
  split at h
  · next a b c d cs nm jd qs hcs hnm hjd hqs =>
    injection h with h'
    exact ⟨cs, nm, jd, qs, hcs, hnm, hjd, hqs, h'.symm⟩
  · exact absurd h (by simp)

/-- C1 counterexample: in `csvC1` the `W1AW` data row is complete, its
trimmed callsign is non-empty and its rank parses to 1, yet it yields no
output record: the following short row makes `parse_members` raise
(`None.strip()`), so the whole parse returns nothing. -/
theorem claim_c1_counterexample :
    csvTable csvC1 = some (fns4, [rowW1AW, rowShort]) ∧
    readRow fns4 rowW1AW = some memberW1AW ∧
    validMember memberW1AW = true ∧
    parse_members csvC1 = none := by
  exact ⟨by decide, by decide, by decide, by decide⟩

/-- C1 (amended): provided `parse_members` returns a result (it raises
`AttributeError` when a data row is shorter than the header and one of
the four accessed column names falls among the padded fields), every
returned record has a non-empty trimmed callsign and a non-zero parsed
rank; a data row whose rank field fails integer parsing gets rank zero
and is therefore excluded; and a parsed row with non-empty callsign and
non-zero rank is always in the output. -/
theorem claim_c1 (csv : List Char) (fns : List (List Char))
    (rows : List (List (List Char))) (ms : List Member)
    (hT : csvTable csv = some (fns, rows)) (hP : parse_members csv = some ms) :
    (∀ m ∈ ms, m.callsign ≠ [] ∧ m.qc_number ≠ 0) ∧
    (∀ row ∈ rows, ∀ qs, getStr fns row qcKey zeroDefault = some qs →
       pyInt (pyStrip qs) = none →
       ∀ m, readRow fns row = some m → m.qc_number = 0 ∧ m ∉ ms) ∧
    (∀ row ∈ rows, ∀ m, readRow fns row = some m →
       m.callsign ≠ [] → m.qc_number ≠ 0 → m ∈ ms) := by
  have hPE := parse_members_eq csv fns rows hT
  rw [hP] at hPE
  cases hOM : optionMapList (readRow fns) rows with
  | none =>
    rw [hOM] at hPE
    simp at hPE
  | some ms0 =>
    rw [hOM] at hPE
    have hms : ms = sortByQc (ms0.filter validMember) := by simpa using hPE
    subst hms
    have hvalid : ∀ m ∈ sortByQc (ms0.filter validMember),
        m.callsign ≠ [] ∧ m.qc_number ≠ 0 := by
      intro m hm
      have hm' := mem_sortByQc.mp hm
      exact (validMember_iff m).mp (List.mem_filter.mp hm').2
    refine ⟨hvalid, ?_, ?_⟩
    · intro row hrow qs hqs hnone m hr
      obtain ⟨cs, nm, jd, qs', hcs, hnm, hjd, hqs', hm⟩ := readRow_eq fns row m hr
      rw [hqs] at hqs'
      injection hqs' with hq
      subst hq
      have hqc0 : m.qc_number = 0 := by rw [hm]; simp [hnone]
      refine ⟨hqc0, fun hmem => ?_⟩
      exact absurd hqc0 (hvalid m hmem).2
    · intro row hrow m hr hcs hqc
      have hm0 : m ∈ ms0 := optionMapList_mem hOM hrow hr
      have hmf : m ∈ ms0.filter validMember :=
        List.mem_filter.mpr ⟨hm0, (validMember_iff m).mpr ⟨hcs, hqc⟩⟩
      exact mem_sortByQc.mpr hmf

theorem claim_c1_witness :
    csvTable csvC9 = some (fns4, [rowBob, rowAnn]) ∧
    parse_members csvC9 = some [memberAnn, memberBob] ∧
    memberBob ∈ [memberAnn, memberBob] := by
  refine ⟨by decide, by decide, ?_⟩
  exact (claim_c1 csvC9 fns4 [rowBob, rowAnn] [memberAnn, memberBob]
    (by decide) (by decide)).2.2 rowBob (by decide) memberBob
    (by decide) (by decide) (by decide)

/-- C9 counterexample: `parse_members` sorts before returning, so for
`csvC9` — whose data rows appear as ranks 2 then 1 — the output is the
rank-sorted `[memberAnn, memberBob]`, not the file-order
`[memberBob, memberAnn]`. -/
theorem claim_c9_counterexample :
    csvTable csvC9 = some (fns4, [rowBob, rowAnn]) ∧
    readRow fns4 rowBob = some memberBob ∧
    readRow fns4 rowAnn = some memberAnn ∧
    parse_members csvC9 = some [memberAnn, memberBob] ∧
    [memberAnn, memberBob] ≠ [memberBob, memberAnn] := by
  exact ⟨by decide, by decide, by decide, by decide, by decide⟩

/-- C9 (amended): the parser's output is the file-order sequence of valid
records stably sorted ascending by rank (so it is non-decreasing in rank
and preserves file order only within equal ranks), not the raw file
order. -/
theorem claim_c9 (csv : List Char) (fns : List (List Char))
    (rows : List (List (List Char))) (ms : List Member)
    (hT : csvTable csv = some (fns, rows)) (hP : parse_members csv = some ms) :
    ∃ ms0, optionMapList (readRow fns) rows = some ms0 ∧
      ms = sortByQc (ms0.filter validMember) ∧
      ms.Pairwise (fun a b => a.qc_number ≤ b.qc_number) ∧
      (∀ k : Int, ms.filter (fun m => m.qc_number == k) =
        (ms0.filter validMember).filter (fun m => m.qc_number == k)) := by
  have hPE := parse_members_eq csv fns rows hT
  rw [hP] at hPE
  cases hOM : optionMapList (readRow fns) rows with
  | none =>
    rw [hOM] at hPE
    simp at hPE
  | some ms0 =>
    rw [hOM] at hPE
    have hms : ms = sortByQc (ms0.filter validMember) := by simpa using hPE
    subst hms
    exact ⟨ms0, rfl, rfl, sortByQc_pairwise _, fun k => sortByQc_filter _ k⟩

theorem claim_c9_witness :
    csvTable csvC9 = some (fns4, [rowBob, rowAnn]) ∧
    parse_members csvC9 = some [memberAnn, memberBob] ∧
    ∃ ms0, optionMapList (readRow fns4) [rowBob, rowAnn] = some ms0 ∧
      [memberAnn, memberBob] = sortByQc (ms0.filter validMember) ∧
      List.Pairwise (fun a b => a.qc_number ≤ b.qc_number) [memberAnn, memberBob] ∧
      (∀ k : Int, [memberAnn, memberBob].filter (fun m => m.qc_number == k) =
        (ms0.filter validMember).filter (fun m => m.qc_number == k)) := by
  refine ⟨by decide, by decide, ?_⟩
  exact claim_c9 csvC9 fns4 [rowBob, rowAnn] [memberAnn, memberBob]
    (by decide) (by decide)
